import Mathlib

/-!
Shallow embedding of the hippo-client-rust repository (src/lib.rs, src/error.rs):
a thin authenticated HTTP client that logs in to obtain a bearer token
(`create_token`) and registers application revisions
(`register_revision_by_application`, `register_revision_by_storage_id`).

Network transport is abstracted: each operation that performs a round trip is
modelled as a function of the transport outcome (`Except String HttpResponse`,
the error carrying the underlying error message, as `anyhow::Error`/
`reqwest::Error` do).  Byte strings are `List Nat`; Rust `String` is Lean
`String`.  A Rust panic (an `unwrap` failing) is modelled as `Option.none` on
the operation outcome.
-/

/-- Embedding of `ClientError` from src/error.rs.  Underlying foreign errors
(`url::ParseError`, `serde_json::Error`, `reqwest::Error`, `std::io::Error`)
are carried as their message strings. -/
inductive ClientError where
  | invalidUrl (err : String)
  | invalidConfig (msg : String)
  | ioError (err : String)
  | serializationError (err : String)
  | httpClientError (err : String)
  | invalidRequest (status_code : Nat) (message : Option String)
  | serverError (msg : Option String)
  | unauthorized
  | other (msg : String)
deriving DecidableEq, Repr

/-- A received HTTP response: its status code, and the outcome of reading its
body (`response.bytes().await` in the source can itself fail at the transport
level; the error carries the message). -/
structure HttpResponse where
  status : Nat
  bodyBytes : Except String (List Nat)
deriving Repr

/-- Strict UTF-8 decoding of a byte sequence, as Rust
`core::str::from_utf8` / `String::from_utf8`: rejects stray continuation
bytes, overlong encodings, surrogate code points and code points above
U+10FFFF.  Returns the decoded characters, or `none` for invalid UTF-8. -/
def utf8DecodeAux : List Nat → List Char → Option (List Char)
  | [], acc => some acc.reverse
  | b :: rest, acc =>
    if b < 0x80 then utf8DecodeAux rest (Char.ofNat b :: acc)
    else if b < 0xC2 then none
    else if b < 0xE0 then
      match rest with
      | b1 :: rest1 =>
        if 0x80 ≤ b1 ∧ b1 < 0xC0 then
          utf8DecodeAux rest1 (Char.ofNat ((b - 0xC0) * 0x40 + (b1 - 0x80)) :: acc)
        else none
      | [] => none
    else if b < 0xF0 then
      match rest with
      | b1 :: b2 :: rest2 =>
        let lo1 : Nat := if b = 0xE0 then 0xA0 else 0x80
        let hi1 : Nat := if b = 0xED then 0xA0 else 0xC0
        if (lo1 ≤ b1 ∧ b1 < hi1) ∧ (0x80 ≤ b2 ∧ b2 < 0xC0) then
          utf8DecodeAux rest2
            (Char.ofNat ((b - 0xE0) * 0x1000 + (b1 - 0x80) * 0x40 + (b2 - 0x80)) :: acc)
        else none
      | _ => none
    else if b < 0xF5 then
      match rest with
      | b1 :: b2 :: b3 :: rest3 =>
        let lo1 : Nat := if b = 0xF0 then 0x90 else 0x80
        let hi1 : Nat := if b = 0xF4 then 0x90 else 0xC0
        if (lo1 ≤ b1 ∧ b1 < hi1) ∧ (0x80 ≤ b2 ∧ b2 < 0xC0) ∧ (0x80 ≤ b3 ∧ b3 < 0xC0) then
          utf8DecodeAux rest3
            (Char.ofNat ((b - 0xF0) * 0x40000 + (b1 - 0x80) * 0x1000 +
              (b2 - 0x80) * 0x40 + (b3 - 0x80)) :: acc)
        else none
      | _ => none
    else none

/-- Decode a byte sequence as a UTF-8 string, or `none` for invalid UTF-8. -/
def utf8Decode (bytes : List Nat) : Option String :=
  (utf8DecodeAux bytes []).map String.mk

/-- Embedding of `RegisterRevisionRequest` from src/lib.rs: the outbound
payload for `api/revision`.  Field names are serialized in camelCase
(`appId`, `appStorageId`, `revisionNumber`). -/
structure RegisterRevisionRequest where
  app_id : Option String
  app_storage_id : Option String
  revision_number : String
deriving DecidableEq, Repr

/-- Factory `RegisterRevisionRequest::for_app`: payload tagged by application id. -/
def RegisterRevisionRequest.for_app (app_id : String) (revision_number : String) :
    RegisterRevisionRequest :=
  { app_id := some app_id
    app_storage_id := none
    revision_number := revision_number }

/-- Factory `RegisterRevisionRequest::for_bindle_name`: payload tagged by storage
(bindle) id. -/
def RegisterRevisionRequest.for_bindle_name (bindle_name : String) (revision_number : String) :
    RegisterRevisionRequest :=
  { app_id := none
    app_storage_id := some bindle_name
    revision_number := revision_number }

/-- Lowercase hexadecimal digit for a value below 16 (as serde_json and the
uuid crate emit). -/
def hexDigitChar (n : Nat) : Char :=
  if n < 10 then Char.ofNat (48 + n) else Char.ofNat (87 + n)

/-- JSON escaping of one character, as serde_json emits it: `"` and `\` get a
backslash escape, control characters use the short escapes `\b \t \n \f \r`
or `\u00xx`; everything else is passed through. -/
def jsonEscapeChar (c : Char) : List Char :=
  if c = '"' then ['\\', '"']
  else if c = '\\' then ['\\', '\\']
  else if c.toNat < 0x20 then
    if c.toNat = 8 then ['\\', 'b']
    else if c.toNat = 9 then ['\\', 't']
    else if c.toNat = 10 then ['\\', 'n']
    else if c.toNat = 12 then ['\\', 'f']
    else if c.toNat = 13 then ['\\', 'r']
    else
      let hi := c.toNat / 16
      '\\' :: 'u' :: '0' :: '0' :: hexDigitChar hi :: [hexDigitChar (c.toNat % 16)]
  else [c]

/-- A JSON string literal for `s`, quotes included, escaped as serde_json
does. -/
def jsonEscapeString (s : String) : String :=
  String.mk ('"' :: s.data.flatMap jsonEscapeChar ++ ['"'])

/-- serde_json rendering of an `Option<String>` field value: `null` or a
string literal. -/
def renderOptString : Option String → String
  | none => "null"
  | some s => jsonEscapeString s

/-- Embedding of `serde_json::to_string(&request)` for `RegisterRevisionRequest`: compact
JSON, fields in declaration order, camelCase names.  For this type
serialization cannot fail, so it is total (the `map_err` to
`SerializationError` in the source is dead code). -/
def renderRegisterRevisionRequest (r : RegisterRevisionRequest) : String :=
  "\x7b\"appId\":" ++ renderOptString r.app_id ++
    ",\"appStorageId\":" ++ renderOptString r.app_storage_id ++
    ",\"revisionNumber\":" ++ jsonEscapeString r.revision_number ++ "\x7d"

/-- Zero-padded lowercase hexadecimal rendering of `n % 16^w` in `w`
digits. -/
def toHexPad : Nat → Nat → List Char
  | _, 0 => []
  | n, w + 1 => toHexPad (n / 16) w ++ [hexDigitChar (n % 16)]

/-- Embedding of `Uuid::to_string()` from the uuid crate: a UUID is a 128-bit value
(modelled as a `Nat`, reduced mod 2^128 by the 32-digit padding), rendered as
32 lowercase hex digits of the big-endian value, hyphenated 8-4-4-4-12. -/
def uuidToString (n : Nat) : String :=
  let d := toHexPad n 32
  String.mk (d.take 8 ++ '-' :: (d.drop 8).take 4 ++ '-' :: (d.drop 12).take 4 ++
    '-' :: (d.drop 16).take 4 ++ '-' :: d.drop 20)

/-- The `RegisterRevisionRequest` built by `register_revision_by_application`
(src/lib.rs line 161): `RegisterRevisionRequest::for_app(application_id.to_string(), revision_number)`. -/
def register_revision_by_application_request (application_id : Nat)
    (revision_number : String) : RegisterRevisionRequest :=
  RegisterRevisionRequest.for_app (uuidToString application_id) revision_number

/-- The `RegisterRevisionRequest` built by `register_revision_by_storage_id`
(src/lib.rs line 179): `RegisterRevisionRequest::for_bindle_name(bindle_name, revision_number)`. -/
def register_revision_by_storage_id_request (bindle_name : String)
    (revision_number : String) : RegisterRevisionRequest :=
  RegisterRevisionRequest.for_bindle_name bindle_name revision_number

/-- Embedding of `Client::register_revision_by_application` (src/lib.rs lines 155-169),
parameterized by the outcome of the `raw` POST to `api/revision`
(`Except.error e` = the raw call failed, `e` the formatted message; this
covers both transport failures and a URL-join failure inside `raw`, which
`raw` surfaces through the same `anyhow::Result`).  Result `none` models a
panic: in the non-201 branch the source unwraps both the body read and the
UTF-8 decode. -/
def register_revision_by_application (application_id : Nat) (revision_number : String)
    (rawResult : Except String HttpResponse) : Option (Except ClientError Unit) :=
  match rawResult with
  | .error e => some (.error (.other e))
  | .ok response =>
    if response.status = 201 then
      some (.ok ())
    else
      match response.bodyBytes with
      | .error _ => none
      | .ok bytes =>
        match utf8Decode bytes with
        | none => none
        | some s => some (.error (.invalidRequest response.status (some s)))

/-- Embedding of `Client::register_revision_by_storage_id` (src/lib.rs lines 173-187),
parameterized the same way as `register_revision_by_application`; the two
bodies are duplicated in the source. -/
def register_revision_by_storage_id (bindle_name : String) (revision_number : String)
    (rawResult : Except String HttpResponse) : Option (Except ClientError Unit) :=
  match rawResult with
  | .error e => some (.error (.other e))
  | .ok response =>
    if response.status = 201 then
      some (.ok ())
    else
      match response.bodyBytes with
      | .error _ => none
      | .ok bytes =>
        match utf8Decode bytes with
        | none => none
        | some s => some (.error (.invalidRequest response.status (some s)))

/-! ## JSON values and parsing

`create_token` builds its login body by string interpolation (src/lib.rs line
142) and deserializes the response strictly via serde_json (line 147).  To
state claims about well-formedness of the body and strictness of the
deserialization we embed a JSON reader.  It covers objects whose member
values are scalars (string, number, boolean, null), which is the full shape
space relevant here: a `CreateTokenResponse` can only deserialize from an
object of two string members, and any nested value makes it fail just as a
non-scalar does. -/

/-- A JSON value (restricted to objects-of-scalars, see the section
comment). -/
inductive JValue where
  | null
  | bool (b : Bool)
  | num (raw : String)
  | str (s : String)
  | obj (members : List (String × JValue))
deriving Repr

/-- JSON insignificant whitespace. -/
def isJsonWs (c : Char) : Bool :=
  c = ' ' || c = '\t' || c = '\n' || c = '\x0d'

/-- Skip insignificant whitespace. -/
def skipWs (l : List Char) : List Char :=
  l.dropWhile isJsonWs

/-- Value of a hexadecimal digit. -/
def hexVal (c : Char) : Option Nat :=
  if '0' ≤ c ∧ c ≤ '9' then some (c.toNat - 48)
  else if 'a' ≤ c ∧ c ≤ 'f' then some (c.toNat - 87)
  else if 'A' ≤ c ∧ c ≤ 'F' then some (c.toNat - 55)
  else none

/-- The character denoted by a single-character JSON escape, if any. -/
def simpleEscape (e : Char) : Option Char :=
  if e = '"' then some '"'
  else if e = '\\' then some '\\'
  else if e = '/' then some '/'
  else if e = 'b' then some (Char.ofNat 8)
  else if e = 'f' then some (Char.ofNat 12)
  else if e = 'n' then some '\n'
  else if e = 'r' then some (Char.ofNat 13)
  else if e = 't' then some '\t'
  else none

/-- Parse the body of a JSON string literal after its opening quote: the
decoded characters and the input after the closing quote.  Handles the
single-character escapes and `\uXXXX` for BMP code points, and rejects
unescaped control characters and surrogate escapes, as a strict JSON reader
(serde_json) does.  (Restriction of the model: the surrogate-pair escape
form for characters beyond the BMP, which serde_json accepts, is not
modelled; no string this client builds or that the claims exercise uses
it.) -/
def parseJStringAux : List Char → Option (List Char × List Char)
  | [] => none
  | c :: rest =>
    if c = '"' then some ([], rest)
    else if c = '\\' then
      match rest with
      | [] => none
      | e :: rest1 =>
        if e = 'u' then
          match rest1 with
          | a :: b :: c2 :: d :: rest2 =>
            match hexVal a, hexVal b, hexVal c2, hexVal d with
            | some x, some y, some z, some w =>
              if 0xD800 ≤ ((x * 16 + y) * 16 + z) * 16 + w ∧
                  ((x * 16 + y) * 16 + z) * 16 + w < 0xE000 then none
              else
                (parseJStringAux rest2).map fun p =>
                  (Char.ofNat (((x * 16 + y) * 16 + z) * 16 + w) :: p.1, p.2)
            | _, _, _, _ => none
          | _ => none
        else
          match simpleEscape e with
          | some ch => (parseJStringAux rest1).map fun p => (ch :: p.1, p.2)
          | none => none
    else if c.toNat < 0x20 then none
    else (parseJStringAux rest).map fun p => (c :: p.1, p.2)

/-- One or more decimal digits. -/
def parseDigits (l : List Char) : Option (List Char × List Char) :=
  let ds := l.takeWhile Char.isDigit
  if ds.isEmpty then none else some (ds, l.dropWhile Char.isDigit)

/-- The integer part of a JSON number: `0`, or a nonzero digit followed by
digits (no leading zeros). -/
def parseIntPart : List Char → Option (List Char × List Char)
  | [] => none
  | c :: rest =>
    if c = '0' then some (['0'], rest)
    else if c.isDigit then
      some (c :: rest.takeWhile Char.isDigit, rest.dropWhile Char.isDigit)
    else none

/-- The optional fraction part of a JSON number. -/
def parseFracPart (l : List Char) : Option (List Char × List Char) :=
  match l with
  | '.' :: rest =>
    (parseDigits rest).map fun p => ('.' :: p.1, p.2)
  | _ => some ([], l)

/-- The optional exponent part of a JSON number. -/
def parseExpPart (l : List Char) : Option (List Char × List Char) :=
  match l with
  | e :: rest =>
    if e = 'e' ∨ e = 'E' then
      match rest with
      | s :: rest1 =>
        if s = '+' ∨ s = '-' then
          (parseDigits rest1).map fun p => (e :: s :: p.1, p.2)
        else (parseDigits rest).map fun p => (e :: p.1, p.2)
      | [] => none
    else some ([], l)
  | [] => some ([], l)

/-- A JSON number lexeme: `-? int frac? exp?`; returns the raw lexeme. -/
def parseNumber (l : List Char) : Option (List Char × List Char) :=
  let (neg, l1) : List Char × List Char :=
    match l with
    | '-' :: t => (['-'], t)
    | _ => ([], l)
  match parseIntPart l1 with
  | none => none
  | some (ip, l2) =>
    match parseFracPart l2 with
    | none => none
    | some (fp, l3) =>
      match parseExpPart l3 with
      | none => none
      | some (ep, l4) => some (neg ++ ip ++ fp ++ ep, l4)

/-- A scalar JSON value: string, `null`, `true`, `false`, or a number. -/
def parseScalarValue (l : List Char) : Option (JValue × List Char) :=
  match l with
  | '"' :: rest => (parseJStringAux rest).map fun p => (JValue.str (String.mk p.1), p.2)
  | 'n' :: 'u' :: 'l' :: 'l' :: t => some (JValue.null, t)
  | 't' :: 'r' :: 'u' :: 'e' :: t => some (JValue.bool true, t)
  | 'f' :: 'a' :: 'l' :: 's' :: 'e' :: t => some (JValue.bool false, t)
  | _ => (parseNumber l).map fun p => (JValue.num (String.mk p.1), p.2)

/-- One or more comma-separated object members (`"key": scalar`), up to and
including the closing brace.  `fuel` bounds the member count; callers pass
the input length, which the member count can never reach. -/
def parseMembers : Nat → List Char → Option (List (String × JValue) × List Char)
  | 0, _ => none
  | fuel + 1, l =>
    match skipWs l with
    | '"' :: rest =>
      match parseJStringAux rest with
      | none => none
      | some (key, rest1) =>
        match skipWs rest1 with
        | ':' :: rest2 =>
          match parseScalarValue (skipWs rest2) with
          | none => none
          | some (v, rest3) =>
            match skipWs rest3 with
            | ',' :: rest4 =>
              (parseMembers fuel rest4).map fun p => ((String.mk key, v) :: p.1, p.2)
            | '}' :: rest4 => some ([(String.mk key, v)], rest4)
            | _ => none
        | _ => none
    | _ => none

/-- Parse a complete JSON document that is an object of scalar members:
leading and trailing whitespace allowed, nothing but whitespace after the
closing brace. -/
def jsonParse (s : String) : Option (List (String × JValue)) :=
  match skipWs s.data with
  | '{' :: rest =>
    match skipWs rest with
    | '}' :: rest1 => if (skipWs rest1).isEmpty then some [] else none
    | _ =>
      match parseMembers s.data.length rest with
      | none => none
      | some (kvs, rest1) => if (skipWs rest1).isEmpty then some kvs else none
  | _ => none

/-! ## Token acquisition -/

/-- The login request body built by `Client::create_token` (src/lib.rs line
142): Rust `format!` string interpolation of the credentials into a JSON
object literal, with no escaping of the interpolated values. -/
def createTokenBody (username : String) (password : String) : String :=
  "\x7b \"username\": \"" ++ username ++ "\", \"password\": \"" ++ password ++ "\" \x7d"

/-- Embedding of `CreateTokenResponse` (src/lib.rs lines 40-45): strict
deserialization target with exactly the camelCase fields `token` and
`expiration` (`deny_unknown_fields`). -/
structure CreateTokenResponse where
  token : String
  expiration : String
deriving DecidableEq, Repr

/-- serde deserialization of `CreateTokenResponse` from a parsed JSON
object: exactly the members `token` and `expiration` (in either order, as
serde allows), both strings; a missing field, an unknown field
(`deny_unknown_fields`), a duplicate field, or a non-string value fails. -/
def tokenResponseOfMembers : List (String × JValue) → Option CreateTokenResponse
  | [(k1, JValue.str v1), (k2, JValue.str v2)] =>
    if k1 = "token" ∧ k2 = "expiration" then some ⟨v1, v2⟩
    else if k1 = "expiration" ∧ k2 = "token" then some ⟨v2, v1⟩
    else none
  | _ => none

/-- Embedding of `serde_json::from_slice::<CreateTokenResponse>` (src/lib.rs line 147):
the body bytes must be valid UTF-8 forming a JSON object that matches the
strict two-field schema. -/
def parseTokenResponse (bytes : List Nat) : Option CreateTokenResponse :=
  match utf8Decode bytes with
  | none => none
  | some s =>
    match jsonParse s with
    | none => none
    | some kvs => tokenResponseOfMembers kvs

/-- Embedding of `Client::create_token` (src/lib.rs lines 136-149), parameterized by the
outcome of `base_url.join("account/createtoken")` (whose `?` converts a
`url::ParseError` into `InvalidUrl`) and of sending the request.  Send
failure maps to `HttpClientError` (line 145); a body-read failure propagates
through `?` as `HttpClientError` too (line 146, `From<reqwest::Error>`);
the body is then deserialized strictly, any mismatch giving
`SerializationError` (line 147, diagnostic message abstracted), and on
success the `token` field is returned verbatim (line 148).  The HTTP status
code of the response is never inspected. -/
def create_token (joinResult : Except String Unit)
    (sendResult : Except String HttpResponse) : Except ClientError String :=
  match joinResult with
  | .error e => .error (.invalidUrl e)
  | .ok _ =>
    match sendResult with
    | .error e => .error (.httpClientError e)
    | .ok response =>
      match response.bodyBytes with
      | .error e => .error (.httpClientError e)
      | .ok bytes =>
        match parseTokenResponse bytes with
        | none => .error (.serializationError "invalid CreateTokenResponse")
        | some tr => .ok tr.token

/-! ## URLs and the raw request executor

A restricted model of the url crate, covering
`scheme://host/path[?query][#fragment]` URLs (no userinfo or port
semantics) and references without scheme or authority — the shapes the
client's base URLs and the two fixed relative paths `account/createtoken`
and `api/revision` exercise. -/

/-- A parsed absolute URL: scheme, host, path (always starting with `/`),
and optional query and fragment. -/
structure Url where
  scheme : List Char
  host : List Char
  path : List Char
  query : Option (List Char)
  fragment : Option (List Char)
deriving DecidableEq, Repr

/-- Drop everything after the last `/` of a path (the "file" segment),
keeping the slash. -/
def stripLastSegment (path : List Char) : List Char :=
  (path.reverse.dropWhile (fun c => c ≠ '/')).reverse

/-- Model of `Url::join` with a reference without scheme or authority (url
crate, restricted): the reference splits into path, optional query, and
optional fragment.  A path-absolute reference replaces the whole path; a
relative-path reference replaces the last segment of the base path; in both
cases the base query is dropped in favor of the reference's.  An empty
reference path keeps the base path (and the base query, unless the
reference carries one). -/
def Url.join (u : Url) (rel : String) : Url :=
  let beforeFrag := rel.data.takeWhile (fun d => d ≠ '#')
  let frag := rel.data.dropWhile (fun d => d ≠ '#')
  let relPath := beforeFrag.takeWhile (fun d => d ≠ '?')
  let qry := beforeFrag.dropWhile (fun d => d ≠ '?')
  let newFragment : Option (List Char) :=
    match frag with | '#' :: f => some f | _ => none
  match relPath with
  | [] =>
    { u with query := match qry with | '?' :: q => some q | _ => u.query,
             fragment := newFragment }
  | c :: _ =>
    if c = '/' then
      { u with path := relPath,
               query := match qry with | '?' :: q => some q | _ => none,
               fragment := newFragment }
    else
      { u with path := stripLastSegment u.path ++ relPath,
               query := match qry with | '?' :: q => some q | _ => none,
               fragment := newFragment }

/-- The constructed client state the request paths use: the parsed base URL
and the bearer token obtained at construction. -/
structure Client where
  base_url : Url
  auth_token : String
deriving DecidableEq, Repr

/-- An outbound HTTP request as `Client::raw` assembles it. -/
structure HttpRequest where
  method : String
  url : Url
  bearerToken : String
  contentLength : Nat
  payload : Option String
deriving DecidableEq, Repr

/-- Embedding of `Client::raw` (src/lib.rs lines 112-133), request-building part: joins
the path against the base URL (for a base with a host and the relative paths
used here the join cannot fail, so the `?` on line 119 is not modelled as
fallible), attaches the bearer token, and sets `Content-Length` and the
payload from the optional body: a present body contributes its UTF-8 byte
length and itself, an absent one contributes length 0 and no payload. -/
def Client.raw (c : Client) (method : String) (path : String)
    (body : Option String) : HttpRequest :=
  let contentLengthAndPayload : Nat × Option String :=
    match body with
    | some b => (b.utf8ByteSize, some b)
    | none => (0, none)
  { method := method
    url := c.base_url.join path
    bearerToken := c.auth_token
    contentLength := contentLengthAndPayload.1
    payload := contentLengthAndPayload.2 }

/-! ## Auxiliary predicates used by the statements -/

/-- A character that JSON string syntax takes literally: not a quote, not a
backslash, not a control character. -/
def jsonPlainChar (c : Char) : Bool :=
  c ≠ '"' && c ≠ '\\' && decide (0x20 ≤ c.toNat)

/-- A string whose characters all pass `jsonPlainChar`: interpolating it
between quotes needs no JSON escaping. -/
def jsonPlainString (s : String) : Bool :=
  s.data.all jsonPlainChar

/-- The sixteen lowercase hexadecimal digits. -/
def lowercaseHexDigits : List Char :=
  "0123456789abcdef".data

/-- Whether exactly one of the two identifier fields of a
`RegisterRevisionRequest` is present. -/
def hasExactlyOneId (r : RegisterRevisionRequest) : Bool :=
  r.app_id.isSome != r.app_storage_id.isSome

/-- Whether a `ClientError` is the `ServerError` or the `Unauthorized`
variant. -/
def isServerErrorOrUnauthorized : ClientError → Bool
  | .serverError _ => true
  | .unauthorized => true
  | _ => false

/-! ## Helper lemmas -/

/-- Rebuilding a string from its character list is the identity. -/
theorem mk_data (s : String) : String.mk s.data = s := by
  cases s
  rfl

/-- Unpacking of `jsonPlainChar`. -/
theorem jsonPlainChar_props (c : Char) (h : jsonPlainChar c = true) :
    ¬c = '"' ∧ ¬c = '\\' ∧ ¬(c.toNat < 0x20) := by
  simp only [jsonPlainChar, Bool.and_eq_true, decide_eq_true_eq] at h
  exact ⟨h.1.1, h.1.2, by omega⟩

/-- A closing quote ends a JSON string body at once. -/
theorem parseJStringAux_closing_quote (rest : List Char) :
    parseJStringAux ('"' :: rest) = some ([], rest) := by
  unfold parseJStringAux
  rfl

/-- A plain character is taken literally by the JSON string reader. -/
theorem parseJStringAux_cons_plain (c : Char) (l : List Char)
    (hq : ¬c = '"') (hb : ¬c = '\\') (hctl : ¬(c.toNat < 0x20)) :
    parseJStringAux (c :: l) = (parseJStringAux l).map fun p => (c :: p.1, p.2) := by
  conv_lhs => unfold parseJStringAux
  rw [if_neg hq, if_neg hb, if_neg hctl]

/-- A string of plain characters parses to itself, up to its closing
quote. -/
theorem parseJStringAux_plain (cs rest : List Char)
    (h : ∀ c ∈ cs, jsonPlainChar c = true) :
    parseJStringAux (cs ++ '"' :: rest) = some (cs, rest) := by
  induction cs with
  | nil => exact parseJStringAux_closing_quote rest
  | cons c cs ih =>
    have hc := jsonPlainChar_props c (h c (List.mem_cons_self c cs))
    rw [List.cons_append, parseJStringAux_cons_plain c _ hc.1 hc.2.1 hc.2.2,
      ih (fun d hd => h d (List.mem_cons_of_mem c hd))]
    rfl

/-- One final `"key": "value"` member followed by the closing brace. -/
theorem parseMembers_single (fuel : Nat) (key val tail : List Char)
    (hkey : ∀ c ∈ key, jsonPlainChar c = true)
    (hval : ∀ c ∈ val, jsonPlainChar c = true) :
    parseMembers (fuel + 1)
        (' ' :: '"' :: (key ++ '"' :: ':' :: ' ' :: '"' :: (val ++ '"' :: ' ' :: '}' :: tail)))
      = some ([(String.mk key, JValue.str (String.mk val))], tail) := by
  have e1 := parseJStringAux_plain key (':' :: ' ' :: '"' :: (val ++ '"' :: ' ' :: '}' :: tail)) hkey
  have e2 := parseJStringAux_plain val (' ' :: '}' :: tail) hval
  have s1 : ∀ X : List Char, skipWs (' ' :: X) = skipWs X := fun X => rfl
  have s2 : ∀ X : List Char, skipWs ('"' :: X) = '"' :: X := fun X => rfl
  have s3 : ∀ X : List Char, skipWs (':' :: X) = ':' :: X := fun X => rfl
  have s4 : ∀ X : List Char, skipWs ('}' :: X) = '}' :: X := fun X => rfl
  simp only [parseMembers, s1, s2, s3, s4, e1, e2, parseScalarValue, Option.map_some']

/-- One `"key": "value"` member followed by a comma and further members. -/
theorem parseMembers_comma (fuel : Nat) (key val tail : List Char)
    (hkey : ∀ c ∈ key, jsonPlainChar c = true)
    (hval : ∀ c ∈ val, jsonPlainChar c = true) :
    parseMembers (fuel + 1)
        (' ' :: '"' :: (key ++ '"' :: ':' :: ' ' :: '"' :: (val ++ '"' :: ',' :: tail)))
      = (parseMembers fuel tail).map fun pr =>
          ((String.mk key, JValue.str (String.mk val)) :: pr.1, pr.2) := by
  have e1 := parseJStringAux_plain key (':' :: ' ' :: '"' :: (val ++ '"' :: ',' :: tail)) hkey
  have e2 := parseJStringAux_plain val (',' :: tail) hval
  have s1 : ∀ X : List Char, skipWs (' ' :: X) = skipWs X := fun X => rfl
  have s2 : ∀ X : List Char, skipWs ('"' :: X) = '"' :: X := fun X => rfl
  have s3 : ∀ X : List Char, skipWs (':' :: X) = ':' :: X := fun X => rfl
  have s5 : ∀ X : List Char, skipWs (',' :: X) = ',' :: X := fun X => rfl
  simp only [parseMembers, s1, s2, s3, s5, e1, e2, parseScalarValue, Option.map_some']

/-- The error forms `register_revision_by_application` can return. -/
theorem register_revision_by_application_error_shape
    (application_id : Nat) (revision_number : String)
    (rawResult : Except String HttpResponse) (err : ClientError)
    (h : register_revision_by_application application_id revision_number rawResult
          = some (.error err)) :
    (∃ e, err = .other e) ∨ ∃ st m, err = .invalidRequest st m := by
  rcases rawResult with e | ⟨st, bb⟩
  · simp [register_revision_by_application] at h
    exact Or.inl ⟨e, h.symm⟩
  · unfold register_revision_by_application at h
    by_cases hs : st = 201
    · simp [hs] at h
    · rcases bb with e2 | bytes
      · simp [hs] at h
      · rcases hd : utf8Decode bytes with _ | s
        · simp [hs, hd] at h
        · simp [hs, hd] at h
          exact Or.inr ⟨st, some s, h.symm⟩

/-- The error forms `register_revision_by_storage_id` can return. -/
theorem register_revision_by_storage_id_error_shape
    (bindle_name revision_number : String)
    (rawResult : Except String HttpResponse) (err : ClientError)
    (h : register_revision_by_storage_id bindle_name revision_number rawResult
          = some (.error err)) :
    (∃ e, err = .other e) ∨ ∃ st m, err = .invalidRequest st m := by
  rcases rawResult with e | ⟨st, bb⟩
  · simp [register_revision_by_storage_id] at h
    exact Or.inl ⟨e, h.symm⟩
  · unfold register_revision_by_storage_id at h
    by_cases hs : st = 201
    · simp [hs] at h
    · rcases bb with e2 | bytes
      · simp [hs] at h
      · rcases hd : utf8Decode bytes with _ | s
        · simp [hs, hd] at h
        · simp [hs, hd] at h
          exact Or.inr ⟨st, some s, h.symm⟩

/-- The error forms `create_token` can return. -/
theorem create_token_error_shape
    (joinResult : Except String Unit) (sendResult : Except String HttpResponse)
    (err : ClientError) (h : create_token joinResult sendResult = .error err) :
    (∃ e, err = .invalidUrl e) ∨ (∃ e, err = .httpClientError e) ∨
      ∃ e, err = .serializationError e := by
  rcases joinResult with e | u
  · simp [create_token] at h
    exact Or.inl ⟨e, h.symm⟩
  · rcases sendResult with e | ⟨st, bb⟩
    · simp [create_token] at h
      exact Or.inr (Or.inl ⟨e, h.symm⟩)
    · unfold create_token at h
      rcases bb with e2 | bytes
      · simp at h
        exact Or.inr (Or.inl ⟨e2, h.symm⟩)
      · rcases hp : parseTokenResponse bytes with _ | tr
        · simp [hp] at h
          exact Or.inr (Or.inr ⟨"invalid CreateTokenResponse", h.symm⟩)
        · simp [hp] at h

/-- The hex rendering of width `w` has length `w`. -/
theorem toHexPad_length (n w : Nat) : (toHexPad n w).length = w := by
  induction w generalizing n with
  | zero => rfl
  | succ w ih => simp [toHexPad, ih]

/-- Every digit value below 16 renders to a lowercase hex digit. -/
theorem hexDigitChar_mem (k : Nat) (h : k < 16) : hexDigitChar k ∈ lowercaseHexDigits := by
  interval_cases k <;> decide

/-- Every character of a hex rendering is a lowercase hex digit. -/
theorem toHexPad_mem (n w : Nat) : ∀ c ∈ toHexPad n w, c ∈ lowercaseHexDigits := by
  induction w generalizing n with
  | zero => simp [toHexPad]
  | succ w ih =>
    intro c hc
    simp only [toHexPad, List.mem_append, List.mem_singleton] at hc
    rcases hc with hc | hc
    · exact ih _ _ hc
    · rw [hc]
      exact hexDigitChar_mem _ (Nat.mod_lt _ (by norm_num))

/-! ## Claim theorems -/

/-- C1: for every call to `register_revision_by_application` or
`register_revision_by_storage_id` in which the POST to `api/revision` yields
a response (whose body is readable, valid UTF-8 — the unchecked decode is
claim C8), the call returns `Ok(())` if and only if the response status is
201 Created; for any other status it returns `InvalidRequest` whose
status code equals the response status and whose message is `Some` of the
response body decoded as UTF-8 text. -/
theorem register_revision_status_interpretation
    (application_id : Nat) (bindle_name revision_number : String)
    (status : Nat) (bytes : List Nat) (s : String)
    (hdec : utf8Decode bytes = some s) :
    (register_revision_by_application application_id revision_number
        (.ok ⟨status, .ok bytes⟩) = some (.ok ()) ↔ status = 201) ∧
    (register_revision_by_storage_id bindle_name revision_number
        (.ok ⟨status, .ok bytes⟩) = some (.ok ()) ↔ status = 201) ∧
    (status ≠ 201 →
      register_revision_by_application application_id revision_number
          (.ok ⟨status, .ok bytes⟩)
        = some (.error (.invalidRequest status (some s))) ∧
      register_revision_by_storage_id bindle_name revision_number
          (.ok ⟨status, .ok bytes⟩)
        = some (.error (.invalidRequest status (some s)))) := by
  by_cases h : status = 201 <;>
    simp [register_revision_by_application, register_revision_by_storage_id, h, hdec]

/-- Witness for C1: a 400 response with body `bad` yields
`InvalidRequest { status_code := 400, message := some "bad" }` from both
operations. -/
theorem register_revision_status_interpretation_witness :
    register_revision_by_application 7 "1.1.1" (.ok ⟨400, .ok [98, 97, 100]⟩)
      = some (.error (.invalidRequest 400 (some "bad"))) ∧
    register_revision_by_storage_id "hippos.rocks/helloworld" "1.1.1"
        (.ok ⟨400, .ok [98, 97, 100]⟩)
      = some (.error (.invalidRequest 400 (some "bad"))) :=
  (register_revision_status_interpretation 7 "hippos.rocks/helloworld" "1.1.1" 400
    [98, 97, 100] "bad" rfl).2.2 (by decide)

/-- C2: the `RegisterRevisionRequest` built by either factory has exactly
one of `app_id`/`app_storage_id` present: `for_app` (used by
`register_revision_by_application`) sets `app_id` and leaves
`app_storage_id` `none`, `for_bindle_name` (used by
`register_revision_by_storage_id`) the inverse — never both, never
neither. -/
theorem register_revision_request_exactly_one_id
    (app_id bindle_name revision_number : String) (application_id : Nat) :
    (RegisterRevisionRequest.for_app app_id revision_number).app_id = some app_id ∧
    (RegisterRevisionRequest.for_app app_id revision_number).app_storage_id = none ∧
    (RegisterRevisionRequest.for_bindle_name bindle_name revision_number).app_id = none ∧
    (RegisterRevisionRequest.for_bindle_name bindle_name revision_number).app_storage_id
      = some bindle_name ∧
    hasExactlyOneId (RegisterRevisionRequest.for_app app_id revision_number) = true ∧
    hasExactlyOneId (RegisterRevisionRequest.for_bindle_name bindle_name revision_number)
      = true ∧
    register_revision_by_application_request application_id revision_number
      = RegisterRevisionRequest.for_app (uuidToString application_id) revision_number ∧
    register_revision_by_storage_id_request bindle_name revision_number
      = RegisterRevisionRequest.for_bindle_name bindle_name revision_number :=
  ⟨rfl, rfl, rfl, rfl, rfl, rfl, rfl, rfl⟩

/-- C3 (counterexample): with a username containing a double quote the
interpolated login body is not well-formed JSON at all — the claim as
stated fails for credentials containing quote characters. -/
theorem create_token_body_quote_counterexample :
    createTokenBody "a\"b" "p"
      = "\x7b \"username\": \"a\"b\", \"password\": \"p\" \x7d" ∧
    jsonParse (createTokenBody "a\"b" "p") = none :=
  ⟨rfl, rfl⟩

/-- C3 (amended): for every username and password containing no
double-quote, backslash, or control characters, the login request body is a
well-formed JSON object with exactly the two fields `username` and
`password` whose values are the given credentials. -/
theorem create_token_body_parses_plain (u p : String)
    (hu : jsonPlainString u = true) (hp : jsonPlainString p = true) :
    jsonParse (createTokenBody u p)
      = some [("username", JValue.str u), ("password", JValue.str p)] := by
  have hu' : ∀ c ∈ u.data, jsonPlainChar c = true := by
    simpa [jsonPlainString, List.all_eq_true] using hu
  have hp' : ∀ c ∈ p.data, jsonPlainChar c = true := by
    simpa [jsonPlainString, List.all_eq_true] using hp
  have hdata : (createTokenBody u p).data
      = '{' :: ' ' :: '"' :: ("username".data ++ '"' :: ':' :: ' ' :: '"' ::
          (u.data ++ '"' :: ',' :: ' ' :: '"' :: ("password".data ++ '"' :: ':' :: ' ' :: '"' ::
            (p.data ++ '"' :: ' ' :: '}' :: [])))) := by
    simp only [createTokenBody, String.data_append, List.append_assoc]
    rfl
  have hlen : (createTokenBody u p).data.length
      = ((u.data.length + p.data.length + 32) + 1) + 1 := by
    rw [hdata]
    simp [List.length_append]
    omega
  have hkey1 : ∀ c ∈ "username".data, jsonPlainChar c = true := by decide
  have hkey2 : ∀ c ∈ "password".data, jsonPlainChar c = true := by decide
  have hm1 := parseMembers_comma ((u.data.length + p.data.length + 32) + 1) "username".data
    u.data (' ' :: '"' :: ("password".data ++ '"' :: ':' :: ' ' :: '"' ::
      (p.data ++ '"' :: ' ' :: '}' :: []))) hkey1 hu'
  have hm2 := parseMembers_single (u.data.length + p.data.length + 32) "password".data
    p.data [] hkey2 hp'
  have s0 : ∀ X : List Char, skipWs ('{' :: X) = '{' :: X := fun X => rfl
  have s1 : ∀ X : List Char, skipWs (' ' :: X) = skipWs X := fun X => rfl
  have s2 : ∀ X : List Char, skipWs ('"' :: X) = '"' :: X := fun X => rfl
  have sn : skipWs [] = [] := rfl
  unfold jsonParse
  rw [hlen, hdata]
  simp only [s0, s1, s2, sn, hm1, hm2, Option.map_some', mk_data]
  rfl

/-- Witness for the amended C3: the reference credentials produce exactly
the two-field object. -/
theorem create_token_body_parses_plain_witness :
    jsonParse (createTokenBody "admin" "Passw0rd!")
      = some [("username", JValue.str "admin"), ("password", JValue.str "Passw0rd!")] :=
  create_token_body_parses_plain "admin" "Passw0rd!" rfl rfl

/-- C5: `create_token` deserializes the response body strictly as a
two-field `CreateTokenResponse` without inspecting the HTTP status code
(the outcome is the same for any two statuses); a body that does not parse
as exactly the fields `token` and `expiration` yields `SerializationError`,
and otherwise the `token` field is returned verbatim. -/
theorem create_token_ignores_status_and_is_strict
    (status status2 : Nat) (bytes : List Nat) :
    create_token (.ok ()) (.ok ⟨status, .ok bytes⟩)
      = create_token (.ok ()) (.ok ⟨status2, .ok bytes⟩) ∧
    (parseTokenResponse bytes = none →
      create_token (.ok ()) (.ok ⟨status, .ok bytes⟩)
        = .error (.serializationError "invalid CreateTokenResponse")) ∧
    ∀ tr, parseTokenResponse bytes = some tr →
      create_token (.ok ()) (.ok ⟨status, .ok bytes⟩) = .ok tr.token := by
  refine ⟨rfl, fun h => by simp [create_token, h], fun tr h => by simp [create_token, h]⟩

/-- Witness for C5: a 401 response with a valid token body still yields the
token; a 401 response with body `no` yields `SerializationError`. -/
theorem create_token_ignores_status_and_is_strict_witness :
    create_token (.ok ())
        (.ok ⟨401, .ok ("\x7b\"token\":\"abc\",\"expiration\":\"2099-01-01\"\x7d".data.map
          Char.toNat)⟩)
      = .ok "abc" ∧
    create_token (.ok ()) (.ok ⟨401, .ok [110, 111]⟩)
      = .error (.serializationError "invalid CreateTokenResponse") :=
  ⟨(create_token_ignores_status_and_is_strict 401 500 _).2.2 ⟨"abc", "2099-01-01"⟩ rfl,
   (create_token_ignores_status_and_is_strict 401 500 _).2.1 rfl⟩

/-- C6: `raw` attaches a present body as the payload with `Content-Length`
equal to its UTF-8 byte length, and an absent body as no payload with
`Content-Length: 0`. -/
theorem raw_content_length (c : Client) (method path : String) (body : Option String) :
    (c.raw method path body).payload = body ∧
    (∀ b, body = some b → (c.raw method path body).contentLength = b.utf8ByteSize) ∧
    (body = none → (c.raw method path body).contentLength = 0) := by
  cases body <;> simp [Client.raw]

/-- Witness for C6: a multi-byte body of 5 characters gets
`Content-Length: 6`; no body gets `Content-Length: 0`. -/
theorem raw_content_length_witness :
    (Client.raw ⟨⟨['h','t','t','p','s'], ['h'], ['/'], none, none⟩, "tok"⟩ "POST" "api/revision"
        (some "héllo")).contentLength = 6 ∧
    (Client.raw ⟨⟨['h','t','t','p','s'], ['h'], ['/'], none, none⟩, "tok"⟩ "POST" "api/revision"
        (some "héllo")).payload = some "héllo" ∧
    (Client.raw ⟨⟨['h','t','t','p','s'], ['h'], ['/'], none, none⟩, "tok"⟩ "POST" "api/revision"
        none).contentLength = 0 ∧
    (Client.raw ⟨⟨['h','t','t','p','s'], ['h'], ['/'], none, none⟩, "tok"⟩ "POST" "api/revision"
        none).payload = none := by
  refine ⟨?_, ?_, ?_, ?_⟩
  · exact ((raw_content_length ⟨⟨['h','t','t','p','s'], ['h'], ['/'], none, none⟩, "tok"⟩ "POST"
      "api/revision" (some "héllo")).2.1 "héllo" rfl).trans rfl
  · exact (raw_content_length ⟨⟨['h','t','t','p','s'], ['h'], ['/'], none, none⟩, "tok"⟩ "POST"
      "api/revision" (some "héllo")).1
  · exact (raw_content_length ⟨⟨['h','t','t','p','s'], ['h'], ['/'], none, none⟩, "tok"⟩ "POST"
      "api/revision" none).2.2 rfl
  · exact (raw_content_length ⟨⟨['h','t','t','p','s'], ['h'], ['/'], none, none⟩, "tok"⟩ "POST"
      "api/revision" none).1

/-- C7: when the `raw` call underlying either revision operation fails (its
`anyhow` error covering transport failures and the URL-join `?` inside
`raw`), the operation returns `Other` wrapping the error message — a
variant distinct from `HttpClientError` and `InvalidUrl`. -/
theorem register_revision_transport_error_wraps_other
    (application_id : Nat) (bindle_name revision_number e : String) :
    register_revision_by_application application_id revision_number (.error e)
      = some (.error (.other e)) ∧
    register_revision_by_storage_id bindle_name revision_number (.error e)
      = some (.error (.other e)) ∧
    (∀ m, ClientError.other e ≠ ClientError.httpClientError m) ∧
    (∀ m, ClientError.other e ≠ ClientError.invalidUrl m) :=
  ⟨rfl, rfl, fun _ h => ClientError.noConfusion h, fun _ h => ClientError.noConfusion h⟩

/-- Witness for C7 at a concrete transport error message. -/
theorem register_revision_transport_error_wraps_other_witness :
    register_revision_by_application 7 "1.1.1" (.error "connection refused")
      = some (.error (.other "connection refused")) ∧
    register_revision_by_storage_id "hippos.rocks/helloworld" "1.1.1"
        (.error "connection refused")
      = some (.error (.other "connection refused")) ∧
    ClientError.other "connection refused" ≠ ClientError.httpClientError "connection refused" ∧
    ClientError.other "connection refused" ≠ ClientError.invalidUrl "connection refused" := by
  have h := register_revision_transport_error_wraps_other 7 "hippos.rocks/helloworld"
    "1.1.1" "connection refused"
  exact ⟨h.1, h.2.1, h.2.2.1 "connection refused", h.2.2.2 "connection refused"⟩

/-- C8: in the non-201 branch of both revision operations the body read and
the UTF-8 decode are unwrapped: a failing body read or a non-UTF-8 body
makes the operation panic (modelled as `none`) instead of returning an
error. -/
theorem register_revision_panics_on_undecodable_body
    (application_id : Nat) (bindle_name revision_number : String)
    (status : Nat) (bytes : List Nat) (e : String)
    (hstatus : status ≠ 201) (hbad : utf8Decode bytes = none) :
    register_revision_by_application application_id revision_number
      (.ok ⟨status, .ok bytes⟩) = none ∧
    register_revision_by_storage_id bindle_name revision_number
      (.ok ⟨status, .ok bytes⟩) = none ∧
    register_revision_by_application application_id revision_number
      (.ok ⟨status, .error e⟩) = none ∧
    register_revision_by_storage_id bindle_name revision_number
      (.ok ⟨status, .error e⟩) = none := by
  simp [register_revision_by_application, register_revision_by_storage_id, hstatus, hbad]

/-- Witness for C8: a 400 response whose body is the invalid UTF-8 byte
`0xFF`, or whose body read fails, panics in both operations. -/
theorem register_revision_panics_on_undecodable_body_witness :
    register_revision_by_application 7 "1.1.1" (.ok ⟨400, .ok [255]⟩) = none ∧
    register_revision_by_storage_id "b" "1.1.1" (.ok ⟨400, .ok [255]⟩) = none ∧
    register_revision_by_application 7 "1.1.1" (.ok ⟨400, .error "read failed"⟩) = none ∧
    register_revision_by_storage_id "b" "1.1.1" (.ok ⟨400, .error "read failed"⟩) = none :=
  register_revision_panics_on_undecodable_body 7 "b" "1.1.1" 400 [255] "read failed"
    (by decide) rfl

/-- C9: no execution of the two revision operations or of token acquisition
returns the `ServerError` or the `Unauthorized` variant, whatever the
response (status, body, or transport outcome). -/
theorem client_errors_never_server_or_unauthorized
    (application_id : Nat) (bindle_name revision_number : String)
    (rawResult : Except String HttpResponse)
    (joinResult : Except String Unit) (sendResult : Except String HttpResponse)
    (err : ClientError)
    (h : register_revision_by_application application_id revision_number rawResult
           = some (.error err) ∨
         register_revision_by_storage_id bindle_name revision_number rawResult
           = some (.error err) ∨
         create_token joinResult sendResult = .error err) :
    isServerErrorOrUnauthorized err = false := by
  rcases h with h | h | h
  · rcases register_revision_by_application_error_shape _ _ _ _ h with ⟨e, rfl⟩ | ⟨st, m, rfl⟩ <;>
      rfl
  · rcases register_revision_by_storage_id_error_shape _ _ _ _ h with ⟨e, rfl⟩ | ⟨st, m, rfl⟩ <;>
      rfl
  · rcases create_token_error_shape _ _ _ h with ⟨e, rfl⟩ | ⟨e, rfl⟩ | ⟨e, rfl⟩ <;> rfl

/-- Witness for C9 at a concrete failing execution. -/
theorem client_errors_never_server_or_unauthorized_witness :
    isServerErrorOrUnauthorized (ClientError.other "connection refused") = false :=
  client_errors_never_server_or_unauthorized 7 "b" "1.1.1" (.error "connection refused")
    (.ok ()) (.ok ⟨200, .ok []⟩) (ClientError.other "connection refused") (Or.inl rfl)

/-- C10: `register_revision_by_application` puts the UUID's canonical
textual form — `Uuid::to_string()`, a lowercase hyphenated 8-4-4-4-12 hex
string — into the `app_id` field of the request payload. -/
theorem register_by_application_app_id_canonical_uuid
    (application_id : Nat) (revision_number : String) :
    (register_revision_by_application_request application_id revision_number).app_id
      = some (uuidToString application_id) ∧
    ∃ a b c d e : List Char,
      a.length = 8 ∧ b.length = 4 ∧ c.length = 4 ∧ d.length = 4 ∧ e.length = 12 ∧
      (∀ ch ∈ a, ch ∈ lowercaseHexDigits) ∧ (∀ ch ∈ b, ch ∈ lowercaseHexDigits) ∧
      (∀ ch ∈ c, ch ∈ lowercaseHexDigits) ∧ (∀ ch ∈ d, ch ∈ lowercaseHexDigits) ∧
      (∀ ch ∈ e, ch ∈ lowercaseHexDigits) ∧
      (uuidToString application_id).data
        = a ++ '-' :: b ++ '-' :: c ++ '-' :: d ++ '-' :: e := by
  refine ⟨rfl, (toHexPad application_id 32).take 8,
    ((toHexPad application_id 32).drop 8).take 4,
    ((toHexPad application_id 32).drop 12).take 4,
    ((toHexPad application_id 32).drop 16).take 4,
    (toHexPad application_id 32).drop 20,
    ?_, ?_, ?_, ?_, ?_, ?_, ?_, ?_, ?_, ?_, rfl⟩
  · simp [List.length_take, toHexPad_length]
  · simp [List.length_take, List.length_drop, toHexPad_length]
  · simp [List.length_take, List.length_drop, toHexPad_length]
  · simp [List.length_take, List.length_drop, toHexPad_length]
  · simp [List.length_drop, toHexPad_length]
  · exact fun ch hch => toHexPad_mem _ _ _ (List.mem_of_mem_take hch)
  · exact fun ch hch => toHexPad_mem _ _ _ (List.mem_of_mem_drop (List.mem_of_mem_take hch))
  · exact fun ch hch => toHexPad_mem _ _ _ (List.mem_of_mem_drop (List.mem_of_mem_take hch))
  · exact fun ch hch => toHexPad_mem _ _ _ (List.mem_of_mem_drop (List.mem_of_mem_take hch))
  · exact fun ch hch => toHexPad_mem _ _ _ (List.mem_of_mem_drop hch)
